import Mathlib

/-!
The ogaml native stubs: event decoding and framebuffer handles

A shallow embedding of `src/wm/xlib/stubs/event_stubs.c` and
`src/graphics/stubs/fbo_stubs.c`.  The data model is LP64: `int` and `GLuint`
are 32 bits wide, `long`, `intnat`, `value` and `Window` are 64 bits wide.
-/

namespace Ogaml

/-! ## Machine integers -/

/-- Conversion of an integer to the C type `int` (two's complement, 32 bits). -/
def to_int (x : Int) : Int := (x + 2 ^ 31) % 2 ^ 32 - 2 ^ 31

/-- Conversion of an integer to the C type `intnat` (two's complement, 64 bits). -/
def to_intnat (x : Int) : Int := (x + 2 ^ 63) % 2 ^ 64 - 2 ^ 63

/-- Conversion of an integer to the C type `unsigned long` (64 bits). -/
def to_ulong (x : Int) : Nat := (x % 2 ^ 64).toNat

/-- The C expression `1L << n` on `long`: defined only when `0 <= n` and the
result `2 ^ n` is representable, that is `n <= 62`. -/
def shl_1L (n : Int) : Option Int :=
  if 0 ≤ n ∧ n ≤ 62 then some (2 ^ n.toNat) else none

/-! ## The Xlib event record -/

/-- The part of the `XEvent` union the stubs read: `type` (an `int`, shared by
every member), `xany.window` (a `Window`, at the same offset as
`xclient.window`) and the five `long` words `xclient.data.l`. -/
structure XEvent where
  type : Int
  window : Nat
  data_l : Fin 5 → Int

/-! ## OCaml runtime values -/

/-- An OCaml `value`: an immediate machine word, a block with a tag and fields,
or a custom block whose data area holds an `XEvent`. -/
inductive value where
  | word (w : Int)
  | block (tag : Nat) (fields : List value)
  | custom_XEvent (data : XEvent)

/-- The runtime's `Val_int(x)` is `(x << 1) + 1`; no wrap-around for a 32-bit `x`. -/
def Val_int (x : Int) : value := value.word (2 * x + 1)

/-- The runtime's `Int_val(x)` is `(int) (x >> 1)` on the machine word of `x`.
Only an immediate has a word in this model; on a block there is no result. -/
def Int_val (x : value) : Option Int :=
  match x with
  | value.word w => some (to_int (w / 2))
  | _ => none

/-- The runtime's `Val_unit` is `Val_int(0)`. -/
def Val_unit : value := Val_int 0

/-- The runtime's `caml_alloc(wosize, tag)`: a fresh block whose fields are
initialised to `Val_unit`. -/
def caml_alloc (wosize tag : Nat) : value :=
  value.block tag (List.replicate wosize Val_unit)

/-- The runtime's `Store_field(block, i, v)`. -/
def Store_field (b : value) (i : Nat) (v : value) : value :=
  match b with
  | value.block tag fields => value.block tag (fields.set i v)
  | other => other

/-- Modelled from the spec: `Val_some` of `utils/stubs.h`, which is not under
src/; the *present* option, a one-field block with tag 0 wrapping its argument. -/
def Val_some (v : value) : value := Store_field (caml_alloc 1 0) 0 v

/-! ## X protocol event codes (`X11/X.h`) -/

/-- Modelled from the spec: event code of `X11/X.h`, which is not under src/. -/
@[reducible, simp] def KeyPress : Int := 2
/-- Modelled from the spec: event code of `X11/X.h`, which is not under src/. -/
@[reducible, simp] def KeyRelease : Int := 3
/-- Modelled from the spec: event code of `X11/X.h`, which is not under src/. -/
@[reducible, simp] def ButtonPress : Int := 4
/-- Modelled from the spec: event code of `X11/X.h`, which is not under src/. -/
@[reducible, simp] def ButtonRelease : Int := 5
/-- Modelled from the spec: event code of `X11/X.h`, which is not under src/. -/
@[reducible, simp] def MotionNotify : Int := 6
/-- Modelled from the spec: event code of `X11/X.h`, which is not under src/. -/
@[reducible, simp] def EnterNotify : Int := 7
/-- Modelled from the spec: event code of `X11/X.h`, which is not under src/. -/
@[reducible, simp] def LeaveNotify : Int := 8
/-- Modelled from the spec: event code of `X11/X.h`, which is not under src/. -/
@[reducible, simp] def FocusIn : Int := 9
/-- Modelled from the spec: event code of `X11/X.h`, which is not under src/. -/
@[reducible, simp] def FocusOut : Int := 10
/-- Modelled from the spec: event code of `X11/X.h`, which is not under src/. -/
@[reducible, simp] def KeymapNotify : Int := 11
/-- Modelled from the spec: event code of `X11/X.h`, which is not under src/. -/
@[reducible, simp] def Expose : Int := 12
/-- Modelled from the spec: event code of `X11/X.h`, which is not under src/. -/
@[reducible, simp] def GraphicsExpose : Int := 13
/-- Modelled from the spec: event code of `X11/X.h`, which is not under src/. -/
@[reducible, simp] def NoExpose : Int := 14
/-- Modelled from the spec: event code of `X11/X.h`, which is not under src/. -/
@[reducible, simp] def VisibilityNotify : Int := 15
/-- Modelled from the spec: event code of `X11/X.h`, which is not under src/. -/
@[reducible, simp] def CreateNotify : Int := 16
/-- Modelled from the spec: event code of `X11/X.h`, which is not under src/. -/
@[reducible, simp] def DestroyNotify : Int := 17
/-- Modelled from the spec: event code of `X11/X.h`, which is not under src/. -/
@[reducible, simp] def UnmapNotify : Int := 18
/-- Modelled from the spec: event code of `X11/X.h`, which is not under src/. -/
@[reducible, simp] def MapNotify : Int := 19
/-- Modelled from the spec: event code of `X11/X.h`, which is not under src/. -/
@[reducible, simp] def MapRequest : Int := 20
/-- Modelled from the spec: event code of `X11/X.h`, which is not under src/. -/
@[reducible, simp] def ReparentNotify : Int := 21
/-- Modelled from the spec: event code of `X11/X.h`, which is not under src/. -/
@[reducible, simp] def ConfigureNotify : Int := 22
/-- Modelled from the spec: event code of `X11/X.h`, which is not under src/. -/
@[reducible, simp] def ConfigureRequest : Int := 23
/-- Modelled from the spec: event code of `X11/X.h`, which is not under src/. -/
@[reducible, simp] def GravityNotify : Int := 24
/-- Modelled from the spec: event code of `X11/X.h`, which is not under src/. -/
@[reducible, simp] def ResizeRequest : Int := 25
/-- Modelled from the spec: event code of `X11/X.h`, which is not under src/. -/
@[reducible, simp] def CirculateNotify : Int := 26
/-- Modelled from the spec: event code of `X11/X.h`, which is not under src/. -/
@[reducible, simp] def CirculateRequest : Int := 27
/-- Modelled from the spec: event code of `X11/X.h`, which is not under src/. -/
@[reducible, simp] def PropertyNotify : Int := 28
/-- Modelled from the spec: event code of `X11/X.h`, which is not under src/. -/
@[reducible, simp] def SelectionClear : Int := 29
/-- Modelled from the spec: event code of `X11/X.h`, which is not under src/. -/
@[reducible, simp] def SelectionRequest : Int := 30
/-- Modelled from the spec: event code of `X11/X.h`, which is not under src/. -/
@[reducible, simp] def SelectionNotify : Int := 31
/-- Modelled from the spec: event code of `X11/X.h`, which is not under src/. -/
@[reducible, simp] def ColormapNotify : Int := 32
/-- Modelled from the spec: event code of `X11/X.h`, which is not under src/. -/
@[reducible, simp] def ClientMessage : Int := 33
/-- Modelled from the spec: event code of `X11/X.h`, which is not under src/. -/
@[reducible, simp] def MappingNotify : Int := 34
/-- Modelled from the spec: event code of `X11/X.h`, which is not under src/. -/
@[reducible, simp] def GenericEvent : Int := 35
/-- Modelled from the spec: event code of `X11/X.h`, which is not under src/. -/
@[reducible, simp] def LASTEvent : Int := 36

/-! ## `extract_event` and `caml_event_type` -/

/-- The case labels of the first group of the `switch` in `extract_event`. -/
def core_cases : List Int :=
  [KeyPress, KeyRelease, ButtonPress, ButtonRelease, MotionNotify, EnterNotify,
   LeaveNotify, FocusIn, FocusOut, KeymapNotify, Expose, GraphicsExpose, NoExpose,
   VisibilityNotify, CreateNotify, DestroyNotify, UnmapNotify, MapNotify, MapRequest,
   ReparentNotify, ConfigureNotify, ConfigureRequest, GravityNotify, ResizeRequest,
   CirculateNotify, CirculateRequest, PropertyNotify, SelectionClear, SelectionRequest,
   SelectionNotify, ColormapNotify]

/-- The case labels of the third group of the `switch` in `extract_event`. -/
def late_cases : List Int := [MappingNotify, GenericEvent, LASTEvent]

/-- The function `extract_event`: a `switch` on `evt->type`.  The subtractions
are done in `int`. -/
def extract_event (evt : XEvent) : value :=
  if evt.type ∈ core_cases then
    Val_int (to_int (evt.type - 1))
  else if evt.type = ClientMessage then
    Store_field (caml_alloc 1 0) 0 (value.word (evt.data_l 0))
  else if evt.type ∈ late_cases then
    Val_int (to_int (evt.type - 2))
  else
    Val_int 0

/-- The stub `caml_event_type`: the custom block's data is handed to
`extract_event`; `none` when the argument is no such custom block. -/
def caml_event_type (evt : value) : Option value :=
  match evt with
  | value.custom_XEvent data => some (extract_event data)
  | _ => none

/-- The native type codes that decode to a payload-free variant other than
the unknown one: 2..32 and 34..36. -/
def recognised (t : Int) : Prop := (2 ≤ t ∧ t ≤ 32) ∨ (34 ≤ t ∧ t ≤ 36)

instance (t : Int) : Decidable (recognised t) := by
  unfold recognised; infer_instance

/-! ## `caml_xselect_input` -/

/-- The arguments of one call of Xlib's `XSelectInput(display, w, event_mask)`;
`event_mask` is a `long`. -/
structure XSelectInput_call where
  display : Int
  w : Nat
  event_mask : Int

/-- The statement `mask |= (1L << (Int_val(hd)))` with `mask` an `int`: the
operands are or-ed as `long` and the result is converted back to `int`. -/
def or_assign (mask : Int) (hd : value) : Option Int :=
  (Int_val hd).bind fun n => (shl_1L n).map fun b => to_int (Int.lor mask b)

/-- The `while` loop of `caml_xselect_input` over the OCaml list `masks`,
starting from the current `mask`. -/
def mask_loop (mask : Int) : List value → Option Int
  | [] => some mask
  | hd :: tl => (or_assign mask hd).bind fun m => mask_loop m tl

/-- The stub `caml_xselect_input`: the call of `XSelectInput` it makes.  `disp`
and `win` are only cast, so they are given by their machine words; `none` when
the loop has no defined result. -/
def caml_xselect_input (disp win : Int) (masks : List value) : Option XSelectInput_call :=
  (mask_loop 0 masks).map fun mask => ⟨disp, to_ulong win, mask⟩

/-- The mask of the specification: the bitwise or of `1 << index` over the
indices. -/
def or_of_bits (indices : List Nat) : Nat :=
  indices.foldl (fun m i => m ||| (1 <<< i)) 0

/-! ## `checkEvent` and `caml_xnext_event` -/

/-- A display connection, as far as the stubs see it: the queue of pending
events, oldest first. -/
structure Display where
  queue : List XEvent

/-- The predicate `checkEvent`: `evt->xany.window == (Window)window`. -/
def checkEvent (_disp : Display) (evt : XEvent) (window : Nat) : Bool :=
  decide (evt.window = window)

/-- Modelled from the spec: Xlib's `XCheckIfEvent`, which is not under src/.  The
first queued event that satisfies the predicate is removed from the queue and
returned; when there is none the queue is left as it is. -/
def XCheckIfEvent (display : Display) (predicate : Display → XEvent → Nat → Bool)
    (arg : Nat) : Option XEvent × Display :=
  match display.queue.find? (fun e => predicate display e arg) with
  | some e => (some e, ⟨display.queue.eraseP (fun e => predicate display e arg)⟩)
  | none => (none, display)

/-- The stub `caml_xnext_event`: the returned option and the connection
afterwards.  `win` is only cast, so it is given by its machine word. -/
def caml_xnext_event (disp : Display) (win : Int) : value × Display :=
  match XCheckIfEvent disp checkEvent (to_ulong win) with
  | (some event, d) => (Val_some (value.custom_XEvent event), d)
  | (none, d) => (Val_int 0, d)

/-- The results of `n` successive calls of `caml_xnext_event` for the same
window, and the connection after the last one. -/
def poll_repeatedly (win : Int) : Nat → Display → List value × Display
  | 0, disp => ([], disp)
  | n + 1, disp =>
    let r := caml_xnext_event disp win
    let rest := poll_repeatedly win n r.2
    (r.1 :: rest.1, rest.2)

/-! ## Framebuffer handles -/

/-- A custom block of `fbo_custom_ops`: its data area holds one `GLuint`. -/
structure fbo_value where
  data : Nat

/-- The access `FBO(v)`, which reads the `GLuint` (32 bits) of the data area. -/
def FBO (v : fbo_value) : Nat := v.data % 2 ^ 32

/-- The function `compare_fbo`. -/
def compare_fbo (v1 v2 : fbo_value) : Int :=
  let i1 := FBO v1
  let i2 := FBO v2
  if i1 < i2 then -1
  else if i1 = i2 then 0
  else 1

/-- The function `hash_fbo`: the `GLuint` converted to `intnat`. -/
def hash_fbo (v : fbo_value) : Int :=
  let i := FBO v
  to_intnat i

/-- The graphics driver, as far as the stubs see it: the names handed to
`glDeleteFramebuffers`, in call order. -/
structure GLdriver where
  deleted : List Nat

/-- The driver call `glDeleteFramebuffers(n, framebuffers)`, which logs the
first `n` names. -/
def glDeleteFramebuffers (gl : GLdriver) (n : Nat) (framebuffers : List Nat) : GLdriver :=
  ⟨gl.deleted ++ framebuffers.take n⟩

/-- The finaliser `finalise_fbo`. -/
def finalise_fbo (gl : GLdriver) (v : fbo_value) : GLdriver :=
  glDeleteFramebuffers gl 1 [FBO v]

/-- The stub `caml_destroy_fbo`. -/
def caml_destroy_fbo (gl : GLdriver) (buf : fbo_value) : value × GLdriver :=
  (Val_unit, glDeleteFramebuffers gl 1 [FBO buf])

/-- The number of deletion requests logged for the name of `v`. -/
def deletions_of (gl : GLdriver) (v : fbo_value) : Nat :=
  gl.deleted.count (FBO v)

/-! ## Theorems -/

theorem mem_core_cases (t : Int) : t ∈ core_cases ↔ 2 ≤ t ∧ t ≤ 32 := by
  constructor
  · intro h
    simp [core_cases] at h
    omega
  · rintro ⟨h1, h2⟩
    interval_cases t <;> simp [core_cases]

theorem mem_late_cases (t : Int) : t ∈ late_cases ↔ 34 ≤ t ∧ t ≤ 36 := by
  constructor
  · intro h
    simp [late_cases] at h
    omega
  · rintro ⟨h1, h2⟩
    interval_cases t <;> simp [late_cases]

theorem to_int_small (x : Int) (h1 : -(2 ^ 31) ≤ x) (h2 : x < 2 ^ 31) : to_int x = x := by
  unfold to_int
  omega

theorem extract_event_core (evt : XEvent) (h1 : 2 ≤ evt.type) (h2 : evt.type ≤ 32) :
    extract_event evt = Val_int (evt.type - 1) := by
  have hm : evt.type ∈ core_cases := (mem_core_cases _).2 ⟨h1, h2⟩
  have hw : to_int (evt.type - 1) = evt.type - 1 := to_int_small _ (by omega) (by omega)
  simp only [extract_event, hm, if_true, hw]

theorem extract_event_late (evt : XEvent) (h1 : 34 ≤ evt.type) (h2 : evt.type ≤ 36) :
    extract_event evt = Val_int (evt.type - 2) := by
  have hc : evt.type ∉ core_cases := fun h => by
    have := (mem_core_cases _).1 h
    omega
  have hn : evt.type ≠ ClientMessage := by
    simp only [ClientMessage]
    omega
  have hm : evt.type ∈ late_cases := (mem_late_cases _).2 ⟨h1, h2⟩
  have hw : to_int (evt.type - 2) = evt.type - 2 := to_int_small _ (by omega) (by omega)
  simp only [extract_event, hc, hn, hm, if_true, if_false, hw]

theorem extract_event_client (evt : XEvent) (h : evt.type = ClientMessage) :
    extract_event evt = value.block 0 [value.word (evt.data_l 0)] := by
  have hc : evt.type ∉ core_cases := fun h2 => by
    have := (mem_core_cases _).1 h2
    simp only [ClientMessage] at h
    omega
  simp only [extract_event, hc, h, if_true, if_false]
  rfl

theorem extract_event_other (evt : XEvent) (h : evt.type < 2 ∨ 36 < evt.type) :
    extract_event evt = Val_int 0 := by
  have hc : evt.type ∉ core_cases := fun h2 => by
    have := (mem_core_cases _).1 h2
    omega
  have hn : evt.type ≠ ClientMessage := by
    simp only [ClientMessage]
    omega
  have hl : evt.type ∉ late_cases := fun h2 => by
    have := (mem_late_cases _).1 h2
    omega
  simp only [extract_event, hc, hn, hl, if_false]

theorem Val_int_inj (a b : Int) (h : Val_int a = Val_int b) : a = b := by
  simp only [Val_int, value.word.injEq] at h
  omega

/-- Claim C1: every record whose native type code `t` satisfies `2 <= t <= 32`
(KeyPress through ColormapNotify) is decoded by `extract_event`, and so by
`caml_event_type` on the boxed record, to the constant variant of index `t - 1`. -/
theorem C1_core_types_decode_minus_one (evt : XEvent)
    (h1 : 2 ≤ evt.type) (h2 : evt.type ≤ 32) :
    extract_event evt = Val_int (evt.type - 1) ∧
    caml_event_type (value.custom_XEvent evt) = some (Val_int (evt.type - 1)) := by
  have h := extract_event_core evt h1 h2
  exact ⟨h, by simp only [caml_event_type, h]⟩

/-- Witness of C1: a KeyPress record (type code 2) decodes to variant index 1. -/
theorem C1_core_types_decode_minus_one_witness :
    extract_event ⟨KeyPress, 7, ![0, 0, 0, 0, 0]⟩ = Val_int 1 ∧
    caml_event_type (value.custom_XEvent ⟨KeyPress, 7, ![0, 0, 0, 0, 0]⟩) = some (Val_int 1) :=
  C1_core_types_decode_minus_one ⟨KeyPress, 7, ![0, 0, 0, 0, 0]⟩ (by decide) (by decide)

/-- Claim C2: every record whose native type code `t` is MappingNotify (34),
GenericEvent (35) or LASTEvent (36) is decoded by `extract_event`, and so by
`caml_event_type` on the boxed record, to the constant variant of index `t - 2`. -/
theorem C2_late_types_decode_minus_two (evt : XEvent)
    (h : evt.type = MappingNotify ∨ evt.type = GenericEvent ∨ evt.type = LASTEvent) :
    extract_event evt = Val_int (evt.type - 2) ∧
    caml_event_type (value.custom_XEvent evt) = some (Val_int (evt.type - 2)) := by
  have h34 : 34 ≤ evt.type ∧ evt.type ≤ 36 := by
    simp only [MappingNotify, GenericEvent, LASTEvent] at h
    omega
  have h := extract_event_late evt h34.1 h34.2
  exact ⟨h, by simp only [caml_event_type, h]⟩

/-- Witness of C2: a MappingNotify record (type code 34) decodes to variant
index 32. -/
theorem C2_late_types_decode_minus_two_witness :
    extract_event ⟨MappingNotify, 7, ![0, 0, 0, 0, 0]⟩ = Val_int 32 ∧
    caml_event_type (value.custom_XEvent ⟨MappingNotify, 7, ![0, 0, 0, 0, 0]⟩)
      = some (Val_int 32) :=
  C2_late_types_decode_minus_two ⟨MappingNotify, 7, ![0, 0, 0, 0, 0]⟩ (Or.inl rfl)

/-- Claim C3: every ClientMessage record (type code 33) is decoded by
`extract_event`, and so by `caml_event_type` on the boxed record, to a block of
tag 0 with exactly one field, the first data word `data.l[0]` of the payload;
the other four payload words do not matter. -/
theorem C3_client_message_carries_first_word (evt : XEvent)
    (h : evt.type = ClientMessage) :
    extract_event evt = value.block 0 [value.word (evt.data_l 0)] ∧
    caml_event_type (value.custom_XEvent evt)
      = some (value.block 0 [value.word (evt.data_l 0)]) := by
  have h := extract_event_client evt h
  exact ⟨h, by simp only [caml_event_type, h]⟩

/-- Witness of C3: the payload `[0x1234, 5, 6, 7, 8]` is decoded to the block
carrying `0x1234`. -/
theorem C3_client_message_carries_first_word_witness :
    extract_event ⟨ClientMessage, 7, ![0x1234, 5, 6, 7, 8]⟩
      = value.block 0 [value.word 0x1234] ∧
    caml_event_type (value.custom_XEvent ⟨ClientMessage, 7, ![0x1234, 5, 6, 7, 8]⟩)
      = some (value.block 0 [value.word 0x1234]) :=
  C3_client_message_carries_first_word ⟨ClientMessage, 7, ![0x1234, 5, 6, 7, 8]⟩ rfl

/-- Claim C4: every record whose native type code `t` lies outside all known
ranges (`t < 2` or `t > 36`, negative codes included) is decoded by
`extract_event`, and so by `caml_event_type` on the boxed record, to the unknown
constant variant, index 0. -/
theorem C4_unknown_types_decode_zero (evt : XEvent)
    (h : evt.type < 2 ∨ 36 < evt.type) :
    extract_event evt = Val_int 0 ∧
    caml_event_type (value.custom_XEvent evt) = some (Val_int 0) := by
  have h := extract_event_other evt h
  exact ⟨h, by simp only [caml_event_type, h]⟩

/-- Witness of C4: the type codes 0, 1, -5 and 37 all decode to index 0. -/
theorem C4_unknown_types_decode_zero_witness :
    extract_event ⟨0, 7, ![0, 0, 0, 0, 0]⟩ = Val_int 0 ∧
    extract_event ⟨1, 7, ![0, 0, 0, 0, 0]⟩ = Val_int 0 ∧
    extract_event ⟨-5, 7, ![0, 0, 0, 0, 0]⟩ = Val_int 0 ∧
    extract_event ⟨37, 7, ![0, 0, 0, 0, 0]⟩ = Val_int 0 :=
  ⟨(C4_unknown_types_decode_zero ⟨0, 7, ![0, 0, 0, 0, 0]⟩ (Or.inl (by decide))).1,
   (C4_unknown_types_decode_zero ⟨1, 7, ![0, 0, 0, 0, 0]⟩ (Or.inl (by decide))).1,
   (C4_unknown_types_decode_zero ⟨-5, 7, ![0, 0, 0, 0, 0]⟩ (Or.inl (by decide))).1,
   (C4_unknown_types_decode_zero ⟨37, 7, ![0, 0, 0, 0, 0]⟩ (Or.inr (by decide))).1⟩

theorem extract_event_recognised (evt : XEvent) (h : recognised evt.type) :
    extract_event evt = Val_int (if evt.type ≤ 32 then evt.type - 1 else evt.type - 2) := by
  rcases h with ⟨h1, h2⟩ | ⟨h1, h2⟩
  · rw [extract_event_core evt h1 h2, if_pos h2]
  · rw [extract_event_late evt h1 h2, if_neg (by omega)]

/-- Claim C10: on the 34 recognised type codes other than ClientMessage (2..32
and 34..36) `extract_event` is injective in the type code, its results are
exactly the constant variants of index 1..34, and none of them is the unknown
index 0. -/
theorem C10_payload_free_table_bijective :
    (∀ e1 e2 : XEvent, recognised e1.type → recognised e2.type →
      extract_event e1 = extract_event e2 → e1.type = e2.type) ∧
    (∀ e : XEvent, recognised e.type →
      ∃ i : Int, 1 ≤ i ∧ i ≤ 34 ∧ extract_event e = Val_int i) ∧
    (∀ i : Int, 1 ≤ i → i ≤ 34 →
      ∃ t : Int, recognised t ∧ ∀ e : XEvent, e.type = t → extract_event e = Val_int i) ∧
    (∀ e : XEvent, recognised e.type → extract_event e ≠ Val_int 0) := by
  refine ⟨?_, ?_, ?_, ?_⟩
  · intro e1 e2 h1 h2 h
    rw [extract_event_recognised e1 h1, extract_event_recognised e2 h2] at h
    have := Val_int_inj _ _ h
    unfold recognised at h1 h2
    split_ifs at this <;> omega
  · intro e h
    refine ⟨_, ?_, ?_, extract_event_recognised e h⟩ <;>
      (unfold recognised at h; split_ifs <;> omega)
  · intro i h1 h2
    by_cases hi : i ≤ 31
    · refine ⟨i + 1, Or.inl ⟨by omega, by omega⟩, fun e he => ?_⟩
      rw [extract_event_core e (by omega) (by omega), he]
      congr 1
      omega
    · refine ⟨i + 2, Or.inr ⟨by omega, by omega⟩, fun e he => ?_⟩
      rw [extract_event_late e (by omega) (by omega), he]
      congr 1
      omega
  · intro e h h0
    rw [extract_event_recognised e h] at h0
    have := Val_int_inj _ _ h0
    unfold recognised at h
    split_ifs at this <;> omega

/-- Witness of C10: ColormapNotify (32) and MappingNotify (34), the two codes
where the offset groups meet, decode to different variants. -/
theorem C10_payload_free_table_bijective_witness :
    extract_event ⟨ColormapNotify, 7, ![0, 0, 0, 0, 0]⟩
      ≠ extract_event ⟨MappingNotify, 7, ![0, 0, 0, 0, 0]⟩ :=
  fun h => absurd
    (C10_payload_free_table_bijective.1 ⟨ColormapNotify, 7, ![0, 0, 0, 0, 0]⟩
      ⟨MappingNotify, 7, ![0, 0, 0, 0, 0]⟩ (by decide) (by decide) h)
    (by decide)

theorem Int_val_Val_int (i : Nat) (hi : i ≤ 24) : Int_val (Val_int i) = some (i : Int) := by
  have hd : (2 * (i : Int) + 1) / 2 = i := by omega
  simp only [Int_val, Val_int, hd]
  rw [to_int_small _ (by omega) (by omega)]

theorem shl_1L_small (i : Nat) (hi : i ≤ 24) : shl_1L (i : Int) = some (((2 ^ i : Nat)) : Int) := by
  have hc : 0 ≤ (i : Int) ∧ (i : Int) ≤ 62 := ⟨by omega, by omega⟩
  simp only [shl_1L, hc, and_self, if_true, Int.toNat_ofNat, Nat.cast_pow, Nat.cast_ofNat]

theorem or_assign_small (m i : Nat) (hm : m < 2 ^ 25) (hi : i ≤ 24) :
    or_assign (m : Int) (Val_int i) = some (((m ||| (1 <<< i) : Nat)) : Int) := by
  have hp : 2 ^ i < 2 ^ 25 := Nat.pow_lt_pow_right (by decide) (by omega)
  have hlt : m ||| 2 ^ i < 2 ^ 25 := Nat.or_lt_two_pow hm hp
  have hl : Int.lor (m : Int) ((2 ^ i : Nat) : Int) = ((m ||| 2 ^ i : Nat) : Int) := rfl
  simp only [or_assign, Int_val_Val_int i hi, shl_1L_small i hi, Option.some_bind,
    Option.map_some', hl, Nat.one_shiftLeft]
  rw [to_int_small _ (by omega) (by omega)]

theorem mask_loop_small (indices : List Nat) (h : ∀ i ∈ indices, i ≤ 24) :
    ∀ m : Nat, m < 2 ^ 25 →
      mask_loop (m : Int) (indices.map fun i => Val_int i)
        = some ((indices.foldl (fun m i => m ||| (1 <<< i)) m : Nat) : Int) := by
  induction indices with
  | nil => intro m _; rfl
  | cons a l ih =>
    intro m hm
    have ha : a ≤ 24 := h a (List.mem_cons_self a l)
    have hp : 2 ^ a < 2 ^ 25 := Nat.pow_lt_pow_right (by decide) (by omega)
    have hlt : m ||| 1 <<< a < 2 ^ 25 := by
      rw [Nat.one_shiftLeft]
      exact Nat.or_lt_two_pow hm hp
    simp only [List.map_cons, mask_loop, or_assign_small m a hm ha, Option.some_bind,
      List.foldl_cons]
    exact ih (fun i hi => h i (List.mem_cons_of_mem a hi)) _ hlt

theorem testBit_foldl_or (l : List Nat) (n b : Nat) :
    (l.foldl (fun m i => m ||| (1 <<< i)) n).testBit b = true
      ↔ (n.testBit b = true ∨ b ∈ l) := by
  induction l generalizing n with
  | nil => simp
  | cons a l ih =>
    rw [List.foldl_cons, ih]
    simp only [Nat.testBit_or, Nat.one_shiftLeft, Nat.testBit_two_pow, Bool.or_eq_true,
      decide_eq_true_eq, List.mem_cons]
    constructor
    · rintro ((h | h) | h)
      · exact Or.inl h
      · exact Or.inr (Or.inl h.symm)
      · exact Or.inr (Or.inr h)
    · rintro (h | h | h)
      · exact Or.inl (Or.inl h)
      · exact Or.inl (Or.inr h.symm)
      · exact Or.inr h

/-- Claim C5: for every list of mask-bit indices, each at most 24, the call of
`XSelectInput` made by `caml_xselect_input` carries as its mask the bitwise or of
`1 << index` over the list: bit `b` of the installed mask is set if and only if
`b` occurs in the list, and the empty list installs 0. -/
theorem C5_select_input_mask_is_or_of_bits (disp win : Int) (indices : List Nat)
    (h : ∀ i ∈ indices, i ≤ 24) :
    caml_xselect_input disp win (indices.map fun i => Val_int i)
      = some ⟨disp, to_ulong win, ((or_of_bits indices : Nat) : Int)⟩ ∧
    (∀ b : Nat, Int.testBit ((or_of_bits indices : Nat) : Int) b = true ↔ b ∈ indices) ∧
    or_of_bits [] = 0 := by
  refine ⟨?_, ?_, rfl⟩
  · simp only [caml_xselect_input]
    have := mask_loop_small indices h 0 (by decide)
    rw [Nat.cast_zero] at this
    rw [this]
    rfl
  · intro b
    have := testBit_foldl_or indices 0 b
    simp only [Nat.zero_testBit, Bool.false_eq_true, false_or] at this
    exact this

/-- Witness of C5: the index list `[3, 5]` installs the mask
`(1 << 3) | (1 << 5)`, which is 40. -/
theorem C5_select_input_mask_is_or_of_bits_witness :
    caml_xselect_input 11 9 [Val_int 3, Val_int 5] = some ⟨11, 9, 40⟩ ∧
    caml_xselect_input 11 9 [] = some ⟨11, 9, 0⟩ :=
  ⟨(C5_select_input_mask_is_or_of_bits 11 9 [3, 5] (by decide)).1,
   (C5_select_input_mask_is_or_of_bits 11 9 [] (by decide)).1⟩

theorem FBO_lt (v : fbo_value) : FBO v < 2 ^ 32 :=
  Nat.mod_lt _ (by decide)

theorem hash_fbo_eq (v : fbo_value) : hash_fbo v = (FBO v : Int) := by
  have h := FBO_lt v
  simp only [hash_fbo, to_intnat]
  omega

theorem compare_fbo_cases (v1 v2 : fbo_value) :
    (FBO v1 < FBO v2 ∧ compare_fbo v1 v2 = -1) ∨
    (FBO v1 = FBO v2 ∧ compare_fbo v1 v2 = 0) ∨
    (FBO v2 < FBO v1 ∧ compare_fbo v1 v2 = 1) := by
  rcases Nat.lt_trichotomy (FBO v1) (FBO v2) with h | h | h
  · exact Or.inl ⟨h, by simp only [compare_fbo, h, if_true]⟩
  · exact Or.inr (Or.inl ⟨h, by
      simp only [compare_fbo, h, lt_self_iff_false, if_false, if_true]⟩)
  · have h1 : ¬ FBO v1 < FBO v2 := by omega
    have h2 : ¬ FBO v1 = FBO v2 := by omega
    exact Or.inr (Or.inr ⟨h, by simp only [compare_fbo, h1, h2, if_false]⟩)

theorem compare_fbo_zero_iff (v1 v2 : fbo_value) : compare_fbo v1 v2 = 0 ↔ FBO v1 = FBO v2 := by
  rcases compare_fbo_cases v1 v2 with ⟨h, hc⟩ | ⟨h, hc⟩ | ⟨h, hc⟩ <;> rw [hc] <;>
    constructor <;> intro h2 <;> omega

/-- Claim C6: for every pair of framebuffer handles, `compare_fbo` returns 0
exactly when the raw names (unsigned 32-bit integers) are equal, -1 exactly when
the first name is below the second and 1 exactly when it is above. -/
theorem C6_compare_fbo_orders_by_raw_name (v1 v2 : fbo_value) :
    (compare_fbo v1 v2 = 0 ↔ FBO v1 = FBO v2) ∧
    (compare_fbo v1 v2 = -1 ↔ FBO v1 < FBO v2) ∧
    (compare_fbo v1 v2 = 1 ↔ FBO v2 < FBO v1) ∧
    FBO v1 < 2 ^ 32 ∧ FBO v2 < 2 ^ 32 := by
  refine ⟨compare_fbo_zero_iff v1 v2, ?_, ?_, FBO_lt v1, FBO_lt v2⟩ <;>
    rcases compare_fbo_cases v1 v2 with ⟨h, hc⟩ | ⟨h, hc⟩ | ⟨h, hc⟩ <;> rw [hc] <;>
    constructor <;> intro h2 <;> omega

/-- Claim C7: `hash_fbo` is the raw unsigned 32-bit name of the handle, so two
handles that `compare_fbo` finds equal have equal hashes, two handles with equal
names have equal hashes, and two handles with distinct names have distinct
hashes. -/
theorem C7_hash_fbo_is_raw_name (v1 v2 : fbo_value) :
    hash_fbo v1 = (FBO v1 : Int) ∧
    (compare_fbo v1 v2 = 0 → hash_fbo v1 = hash_fbo v2) ∧
    (FBO v1 = FBO v2 → hash_fbo v1 = hash_fbo v2) ∧
    (FBO v1 ≠ FBO v2 → hash_fbo v1 ≠ hash_fbo v2) := by
  refine ⟨hash_fbo_eq v1, ?_, ?_, ?_⟩
  · intro h
    rw [hash_fbo_eq, hash_fbo_eq, (compare_fbo_zero_iff v1 v2).1 h]
  · intro h
    rw [hash_fbo_eq, hash_fbo_eq, h]
  · intro h he
    rw [hash_fbo_eq, hash_fbo_eq] at he
    exact h (Int.ofNat.inj he)

/-- Witness of C7: two handles of name 5 compare equal and hash alike, and the
handles of names 5 and 6 hash differently. -/
theorem C7_hash_fbo_is_raw_name_witness :
    compare_fbo ⟨5⟩ ⟨5⟩ = 0 ∧ hash_fbo ⟨5⟩ = 5 ∧ hash_fbo ⟨5⟩ ≠ hash_fbo ⟨6⟩ :=
  ⟨by decide, (C7_hash_fbo_is_raw_name ⟨5⟩ ⟨6⟩).1,
   (C7_hash_fbo_is_raw_name ⟨5⟩ ⟨6⟩).2.2.2 (by decide)⟩

/-- Counterexample to C9: from an empty log, destroying the handle of name 1
and then finalising it logs two deletion requests for name 1, not one. -/
theorem C9_destroy_then_finalise_deletes_twice :
    deletions_of (finalise_fbo (caml_destroy_fbo ⟨[]⟩ ⟨1⟩).2 ⟨1⟩) ⟨1⟩ = 2 ∧
    ¬ deletions_of (finalise_fbo (caml_destroy_fbo ⟨[]⟩ ⟨1⟩).2 ⟨1⟩) ⟨1⟩ = 1 := by
  constructor <;> decide

/-- Claim C9, amended: `caml_destroy_fbo` and `finalise_fbo` each log exactly one
deletion request for the name of their handle, whatever was logged before; so an
explicit destroy followed by finalisation logs two more requests for that name. -/
theorem C9_each_release_path_deletes_once (gl : GLdriver) (h : fbo_value) :
    deletions_of (caml_destroy_fbo gl h).2 h = deletions_of gl h + 1 ∧
    deletions_of (finalise_fbo gl h) h = deletions_of gl h + 1 ∧
    deletions_of (finalise_fbo (caml_destroy_fbo gl h).2 h) h = deletions_of gl h + 2 := by
  have e1 : (caml_destroy_fbo gl h).2.deleted = gl.deleted ++ [FBO h] := rfl
  have e2 : (finalise_fbo gl h).deleted = gl.deleted ++ [FBO h] := rfl
  have e3 : (finalise_fbo (caml_destroy_fbo gl h).2 h).deleted
      = (gl.deleted ++ [FBO h]) ++ [FBO h] := rfl
  unfold deletions_of
  rw [e1, e2, e3]
  simp only [List.count_append, List.count_singleton_self]
  exact ⟨trivial, trivial, trivial⟩

theorem checkEvent_iff (d : Display) (e : XEvent) (w : Nat) :
    checkEvent d e w = true ↔ e.window = w := by
  simp only [checkEvent, decide_eq_true_eq]

theorem caml_xnext_event_absent (disp : Display) (win : Int)
    (h : ∀ e ∈ disp.queue, e.window ≠ to_ulong win) :
    caml_xnext_event disp win = (Val_int 0, disp) := by
  have hf : disp.queue.find? (fun e => checkEvent disp e (to_ulong win)) = none := by
    rw [List.find?_eq_none]
    intro e he hc
    exact h e he ((checkEvent_iff disp e _).1 hc)
  simp only [caml_xnext_event, XCheckIfEvent, hf]

theorem find_first_match (p : XEvent → Bool) (pre post : List XEvent) (e : XEvent)
    (hpre : ∀ x ∈ pre, p x = false) (he : p e = true) :
    (pre ++ e :: post).find? p = some e ∧ (pre ++ e :: post).eraseP p = pre ++ post := by
  induction pre with
  | nil =>
    exact ⟨by simp only [List.nil_append, List.find?_cons, he],
      by simp only [List.nil_append, List.eraseP_cons, he, cond_true]⟩
  | cons a l ih =>
    have ha : p a = false := hpre a (List.mem_cons_self a l)
    have ih2 := ih (fun x hx => hpre x (List.mem_cons_of_mem a hx))
    exact ⟨by simp only [List.cons_append, List.find?_cons, ha, ih2.1],
      by simp only [List.cons_append, List.eraseP_cons, ha, cond_false, ih2.2]⟩

theorem caml_xnext_event_present (disp : Display) (win : Int)
    (pre post : List XEvent) (e : XEvent) (hq : disp.queue = pre ++ e :: post)
    (hpre : ∀ x ∈ pre, x.window ≠ to_ulong win) (he : e.window = to_ulong win) :
    caml_xnext_event disp win = (Val_some (value.custom_XEvent e), ⟨pre ++ post⟩) := by
  have hf := find_first_match (fun x => checkEvent disp x (to_ulong win)) pre post e
    (fun x hx => by
      have := hpre x hx
      simp only [checkEvent, decide_eq_false_iff_not]
      exact this)
    ((checkEvent_iff disp e _).2 he)
  simp only [caml_xnext_event, XCheckIfEvent, hq]
  rw [hf.1, hf.2]

theorem poll_repeatedly_absent (win : Int) (disp : Display)
    (h : ∀ e ∈ disp.queue, e.window ≠ to_ulong win) (n : Nat) :
    poll_repeatedly win n disp = (List.replicate n (Val_int 0), disp) := by
  induction n with
  | zero => rfl
  | succ k ih =>
    simp only [poll_repeatedly, caml_xnext_event_absent disp win h, ih, List.replicate_succ]

/-- Claim C8: with the pending events of the connection as an explicit queue,
`checkEvent` holds exactly when the window field of the event equals the window
given; `caml_xnext_event` returns the absent option when no queued event is for
that window, leaves the queue as it is and so returns absent again at every
repeated poll; and when some queued event is for that window it returns the
present option wrapping a copy of the first such event, which leaves the queue. -/
theorem C8_next_event_polls_first_match (disp : Display) (win : Int) :
    (∀ (d : Display) (e : XEvent) (w : Nat), checkEvent d e w = true ↔ e.window = w) ∧
    ((∀ e ∈ disp.queue, e.window ≠ to_ulong win) →
      ∀ n : Nat, poll_repeatedly win n disp = (List.replicate n (Val_int 0), disp)) ∧
    (∀ (pre post : List XEvent) (e : XEvent), disp.queue = pre ++ e :: post →
      (∀ x ∈ pre, x.window ≠ to_ulong win) → e.window = to_ulong win →
      caml_xnext_event disp win
        = (value.block 0 [value.custom_XEvent e], ⟨pre ++ post⟩)) ∧
    ((caml_xnext_event disp win).1 = Val_int 0
      ↔ ∀ e ∈ disp.queue, e.window ≠ to_ulong win) := by
  refine ⟨checkEvent_iff, poll_repeatedly_absent win disp, ?_, ?_⟩
  · intro pre post e hq hpre he
    exact caml_xnext_event_present disp win pre post e hq hpre he
  · constructor
    · intro h0 e he hw
      obtain ⟨pre, x, post, hq, hpre, hx⟩ :
          ∃ pre x post, disp.queue = pre ++ x :: post ∧
            (∀ y ∈ pre, y.window ≠ to_ulong win) ∧ x.window = to_ulong win := by
        generalize disp.queue = q at he
        induction q with
        | nil => exact absurd he (List.not_mem_nil e)
        | cons a l ih =>
          by_cases ha : a.window = to_ulong win
          · exact ⟨[], a, l, rfl, fun y hy => absurd hy (List.not_mem_nil y), ha⟩
          · rcases List.mem_cons.1 he with rfl | hl
            · exact absurd hw ha
            · obtain ⟨pre, x, post, hq, hpre, hx⟩ := ih hl
              refine ⟨a :: pre, x, post, by rw [hq]; rfl, ?_, hx⟩
              intro y hy
              rcases List.mem_cons.1 hy with rfl | hy2
              · exact ha
              · exact hpre y hy2
      rw [caml_xnext_event_present disp win pre post x hq hpre hx] at h0
      simp [Val_some, Store_field, caml_alloc, Val_int] at h0
    · intro h
      rw [caml_xnext_event_absent disp win h]

/-- Witness of C8: with three queued events, for windows 4, 9 and 9, a poll for
window 9 returns the first event for window 9 (type code 2) and leaves the other
two queued; three polls for window 5 return absent three times and leave the
queue as it is. -/
theorem C8_next_event_polls_first_match_witness :
    caml_xnext_event
        ⟨[⟨12, 4, ![0, 0, 0, 0, 0]⟩, ⟨2, 9, ![0, 0, 0, 0, 0]⟩, ⟨3, 9, ![0, 0, 0, 0, 0]⟩]⟩ 9
      = (value.block 0 [value.custom_XEvent ⟨2, 9, ![0, 0, 0, 0, 0]⟩],
         ⟨[⟨12, 4, ![0, 0, 0, 0, 0]⟩, ⟨3, 9, ![0, 0, 0, 0, 0]⟩]⟩) ∧
    poll_repeatedly 5 3
        ⟨[⟨12, 4, ![0, 0, 0, 0, 0]⟩, ⟨2, 9, ![0, 0, 0, 0, 0]⟩, ⟨3, 9, ![0, 0, 0, 0, 0]⟩]⟩
      = ([Val_int 0, Val_int 0, Val_int 0],
         ⟨[⟨12, 4, ![0, 0, 0, 0, 0]⟩, ⟨2, 9, ![0, 0, 0, 0, 0]⟩, ⟨3, 9, ![0, 0, 0, 0, 0]⟩]⟩) :=
  ⟨(C8_next_event_polls_first_match
      ⟨[⟨12, 4, ![0, 0, 0, 0, 0]⟩, ⟨2, 9, ![0, 0, 0, 0, 0]⟩, ⟨3, 9, ![0, 0, 0, 0, 0]⟩]⟩ 9).2.2.1
      [⟨12, 4, ![0, 0, 0, 0, 0]⟩] [⟨3, 9, ![0, 0, 0, 0, 0]⟩] ⟨2, 9, ![0, 0, 0, 0, 0]⟩
      rfl (by decide) (by decide),
   (C8_next_event_polls_first_match
      ⟨[⟨12, 4, ![0, 0, 0, 0, 0]⟩, ⟨2, 9, ![0, 0, 0, 0, 0]⟩, ⟨3, 9, ![0, 0, 0, 0, 0]⟩]⟩ 5).2.1
      (by decide) 3⟩

end Ogaml
